import Mathlib

/-!
Verification of `remove_background.py`: a thin orchestration layer that
removes image backgrounds by delegating to the external `rembg` library.

The embedding models:
  * filesystem paths as lists of components;
  * the filesystem as an association list of regular files (path to byte
    contents), a list of existing directories, and a list of paths where a
    write fails (modelling unwritable locations; a write either fully
    succeeds or fails leaving the filesystem unchanged, matching the
    single buffered write of the script);
  * the external segmentation call `rembg.remove` as an arbitrary function
    from bytes and a model name to either output bytes or a failure
    description (a raised exception's message).

Byte contents are modelled as `List Nat`.
-/

namespace RemoveBg

/-- A filesystem path, as its list of components. -/
abbrev FsPath := List String

/-- Rendering of a path, used in diagnostic messages. -/
def pathStr (p : FsPath) : String := String.intercalate "/" p

/-- `pathlib.PurePath.name`: the final component of a path. -/
def lastName (p : FsPath) : String := p.getLast?.getD ""

/-- Suffix test on strings; models matching a glob pattern of the form
`*EXT` against a file name (the `*` wildcard matches any, possibly empty,
sequence of characters). -/
def strEndsWith (s post : String) : Bool := post.data.isSuffixOf s.data

/-- `str.upper()` for the ASCII extension strings used by the script. -/
def strUpper (s : String) : String := ⟨s.data.map Char.toUpper⟩

/-- Index of the last occurrence of `'.'` in a list of characters. -/
def lastDot : List Char → Option Nat
  | [] => none
  | c :: cs =>
    match lastDot cs with
    | some i => some (i + 1)
    | none => if c = '.' then some 0 else none

/-- `pathlib.PurePath.stem`: the final component without its suffix.  The
suffix starts at the last dot, provided that dot is neither the first nor
the last character of the name (mirroring CPython's
`0 < i < len(name) - 1` test). -/
def stemStr (name : String) : String :=
  match lastDot name.data with
  | some i => if 0 < i ∧ i + 1 < name.data.length then ⟨name.data.take i⟩ else name
  | none => name

/-- Lookup in an association list of files. -/
def lookupAssoc (l : List (FsPath × List Nat)) (k : FsPath) : Option (List Nat) :=
  match l with
  | [] => none
  | (k', v) :: rest => if k' = k then some v else lookupAssoc rest k

/-- Update an association list of files: replace the binding in place if
the key is present, otherwise append a new binding at the end. -/
def updateAssoc (l : List (FsPath × List Nat)) (k : FsPath) (v : List Nat) :
    List (FsPath × List Nat) :=
  match l with
  | [] => [(k, v)]
  | (k', v') :: rest => if k' = k then (k, v) :: rest else (k', v') :: updateAssoc rest k v

/-- The filesystem state. -/
structure Fs where
  files : List (FsPath × List Nat)
  dirs : List FsPath
  unwritable : List FsPath
deriving DecidableEq

/-- `open(p, 'rb').read()`: returns the file's bytes, or the raised
exception's description when there is no regular file at `p`. -/
def readFile (fs : Fs) (p : FsPath) : Except String (List Nat) :=
  match lookupAssoc fs.files p with
  | some d => .ok d
  | none =>
    if p ∈ fs.dirs then .error ("Is a directory: " ++ pathStr p)
    else .error ("No such file or directory: " ++ pathStr p)

/-- `open(p, 'wb').write(d)`: one buffered write that either fully
succeeds, replacing the file's contents, or fails with the raised
exception's description, leaving the filesystem unchanged. -/
def writeFile (fs : Fs) (p : FsPath) (d : List Nat) : Except String Fs :=
  if p ∈ fs.unwritable then .error ("Permission denied: " ++ pathStr p)
  else .ok { fs with files := updateAssoc fs.files p d }

/-- `Path.exists()`: true when a regular file or a directory is at `p`. -/
def pathExists (fs : Fs) (p : FsPath) : Bool :=
  (lookupAssoc fs.files p).isSome || fs.dirs.contains p

/-- `Path.mkdir(exist_ok=True)`: creates the directory when absent and is
a no-op when it already exists. -/
def mkdirExistOk (fs : Fs) (p : FsPath) : Fs :=
  if p ∈ fs.dirs then fs else { fs with dirs := p :: fs.dirs }

/-- The external segmentation call `rembg.remove(data, model_name=m)`:
bytes and a model name in, bytes out, or a raised failure description.
Treated as an opaque collaborator, so the development quantifies over it. -/
abbrev Seg := List Nat → String → Except String (List Nat)

/-- Result of one run of `remove_background`: the filesystem afterwards,
the lines printed, and the returned value (`some` output path, or `none`
— Python's `None` — after a caught failure). -/
structure SingleResult where
  fs : Fs
  log : List String
  ret : Option FsPath
deriving DecidableEq

/-- The diagnostic printed by the `except` branch of `remove_background`:
`print(f"✗ Ошибка при удалении фона: {str(e)}")`. -/
def errLine (e : String) : String := "✗ Ошибка при удалении фона: " ++ e

/-- The default output path derived when `output_path is None`:
`input_file.parent / f"{input_file.stem}_no_bg.png"`. -/
def defaultOutPath (input_path : FsPath) : FsPath :=
  input_path.dropLast ++ [stemStr (lastName input_path) ++ "_no_bg.png"]

/-- The three lines printed on success. -/
def successLog (input_path out : FsPath) : List String :=
  ["✓ Фон успешно удалён!", "  Вход: " ++ pathStr input_path,
   "  Выход: " ++ pathStr out]

/-- `remove_background(input_path, output_path=None, model='u2net')`:
reads the input file, calls the external segmentation function, derives
the output path when none is given, writes the returned bytes, and
catches any failure of the three steps, printing a diagnostic and
returning `none`. -/
def remove_background (seg : Seg) (fs : Fs) (input_path : FsPath)
    (output_path : Option FsPath) (model : String) : SingleResult :=
  match readFile fs input_path with
  | .error e => ⟨fs, [errLine e], none⟩
  | .ok input_data =>
    match seg input_data model with
    | .error e => ⟨fs, [errLine e], none⟩
    | .ok output_data =>
      let out := output_path.getD (defaultOutPath input_path)
      match writeFile fs out output_data with
      | .error e => ⟨fs, [errLine e], none⟩
      | .ok fs' => ⟨fs', successLog input_path out, some out⟩

/-- The supported image extensions.  The script stores them in a Python
set whose iteration order is unspecified; the order here is the order of
the set literal in the source.  No claim depends on the inter-extension
order. -/
def imageExtensions : List String := [".jpg", ".jpeg", ".png", ".bmp", ".tiff", ".webp"]

/-- `input_path.glob(f"*{suffix}")`: the regular files directly inside
directory `d` whose name ends with `suffix`, in filesystem listing
order. -/
def globDir (fs : Fs) (d : FsPath) (suffix : String) : List FsPath :=
  (fs.files.map Prod.fst).filter
    (fun p => (p.dropLast == d) && strEndsWith (lastName p) suffix)

/-- The enumeration loop of `batch_remove_background`: for each extension
the lowercase glob, then the uppercase glob, results concatenated. -/
def listImages (fs : Fs) (d : FsPath) : List FsPath :=
  imageExtensions.foldl
    (fun acc ext => acc ++ globDir fs d ext ++ globDir fs d (strUpper ext)) []

/-- What `batch_remove_background` prints at its end: early abort for a
missing input directory, early abort when no images were found, or the
final summary of successes over total together with the resolved output
directory. -/
inductive BatchOutcome
  | noInputDir
  | noImages (outputDir : FsPath)
  | done (successCount total : Nat) (outputDir : FsPath)
deriving DecidableEq

/-- The per-file output path used by the batch loop:
`output_path / f"{image_file.stem}_no_bg.png"`. -/
def outFileFor (outDir : FsPath) (f : FsPath) : FsPath :=
  outDir ++ [stemStr (lastName f) ++ "_no_bg.png"]

/-- The default output directory derived when `output_dir is None`:
`input_path.parent / f"{input_path.name}_no_bg"`. -/
def defaultOutDir (input_dir : FsPath) : FsPath :=
  input_dir.dropLast ++ [lastName input_dir ++ "_no_bg"]

/-- The per-file loop of `batch_remove_background`: runs the single-image
processor on each discovered file with an explicit output path, threading
the filesystem, and counts the runs that returned an output path. -/
def batchLoop (seg : Seg) (model : String) (outDir : FsPath) :
    Fs → List FsPath → Fs × Nat
  | fs, [] => (fs, 0)
  | fs, f :: rest =>
    let r := remove_background seg fs f (some (outFileFor outDir f)) model
    let p := batchLoop seg model outDir r.fs rest
    (p.1, (if r.ret.isSome then 1 else 0) + p.2)

/-- The number of files on which the single-image processor fails along
the sequential batch run (the `K` of the summary `N-K`/`N`). -/
def batchFailures (seg : Seg) (model : String) (outDir : FsPath) :
    Fs → List FsPath → Nat
  | _, [] => 0
  | fs, f :: rest =>
    let r := remove_background seg fs f (some (outFileFor outDir f)) model
    (if r.ret.isSome then 0 else 1) + batchFailures seg model outDir r.fs rest

/-- `batch_remove_background(input_dir, output_dir=None, model='u2net')`:
aborts when the input path does not exist; otherwise derives the output
directory when none is given, creates it (`exist_ok=True`), enumerates
image files, aborts when none are found, and otherwise processes every
file and reports the success count over the total. -/
def batch_remove_background (seg : Seg) (fs : Fs) (input_dir : FsPath)
    (output_dir : Option FsPath) (model : String) : Fs × BatchOutcome :=
  if pathExists fs input_dir then
    let outDir := output_dir.getD (defaultOutDir input_dir)
    let fs1 := mkdirExistOk fs outDir
    let files := listImages fs1 input_dir
    if files = [] then (fs1, .noImages outDir)
    else
      let p := batchLoop seg model outDir fs1 files
      (p.1, .done p.2 files.length outDir)
  else (fs, .noInputDir)

/-! ### Basic lemmas about the filesystem model -/

theorem lookupAssoc_updateAssoc_self (l : List (FsPath × List Nat)) (k : FsPath)
    (v : List Nat) : lookupAssoc (updateAssoc l k v) k = some v := by
  induction l with
  | nil => simp [updateAssoc, lookupAssoc]
  | cons hd tl ih =>
    obtain ⟨k', v'⟩ := hd
    by_cases h : k' = k <;> simp [updateAssoc, lookupAssoc, h, ih]

theorem lookupAssoc_updateAssoc_ne (l : List (FsPath × List Nat)) (k k' : FsPath)
    (v : List Nat) (h : k' ≠ k) :
    lookupAssoc (updateAssoc l k v) k' = lookupAssoc l k' := by
  induction l with
  | nil => simp [updateAssoc, lookupAssoc, Ne.symm h]
  | cons hd tl ih =>
    obtain ⟨a, b⟩ := hd
    by_cases ha : a = k
    · subst ha
      simp [updateAssoc, lookupAssoc, Ne.symm h]
    · simp [updateAssoc, lookupAssoc, ha, ih]

theorem writeFile_ok_inv (fs : Fs) (p : FsPath) (d : List Nat) (fs' : Fs)
    (h : writeFile fs p d = .ok fs') :
    fs' = { fs with files := updateAssoc fs.files p d } ∧ p ∉ fs.unwritable := by
  unfold writeFile at h
  split at h
  · exact absurd h (by simp)
  · exact ⟨by injection h with h; exact h.symm, by assumption⟩

/-! ### Case analysis of the single-image processor -/

theorem remove_background_read_error (seg : Seg) (fs : Fs) (ip : FsPath)
    (op : Option FsPath) (model : String) (e : String)
    (h : readFile fs ip = .error e) :
    remove_background seg fs ip op model = ⟨fs, [errLine e], none⟩ := by
  simp [remove_background, h]

theorem remove_background_seg_error (seg : Seg) (fs : Fs) (ip : FsPath)
    (op : Option FsPath) (model : String) (d : List Nat) (e : String)
    (h1 : readFile fs ip = .ok d) (h2 : seg d model = .error e) :
    remove_background seg fs ip op model = ⟨fs, [errLine e], none⟩ := by
  simp [remove_background, h1, h2]

theorem remove_background_write_error (seg : Seg) (fs : Fs) (ip : FsPath)
    (op : Option FsPath) (model : String) (d o : List Nat) (e : String)
    (h1 : readFile fs ip = .ok d) (h2 : seg d model = .ok o)
    (h3 : writeFile fs (op.getD (defaultOutPath ip)) o = .error e) :
    remove_background seg fs ip op model = ⟨fs, [errLine e], none⟩ := by
  simp [remove_background, h1, h2, h3]

theorem remove_background_success (seg : Seg) (fs : Fs) (ip : FsPath)
    (op : Option FsPath) (model : String) (d o : List Nat) (fs' : Fs)
    (h1 : readFile fs ip = .ok d) (h2 : seg d model = .ok o)
    (h3 : writeFile fs (op.getD (defaultOutPath ip)) o = .ok fs') :
    remove_background seg fs ip op model =
      ⟨fs', successLog ip (op.getD (defaultOutPath ip)),
       some (op.getD (defaultOutPath ip))⟩ := by
  simp [remove_background, h1, h2, h3]

theorem remove_background_cases (seg : Seg) (fs : Fs) (ip : FsPath)
    (op : Option FsPath) (model : String) :
    (∃ e, readFile fs ip = .error e ∧
      remove_background seg fs ip op model = ⟨fs, [errLine e], none⟩) ∨
    (∃ d e, readFile fs ip = .ok d ∧ seg d model = .error e ∧
      remove_background seg fs ip op model = ⟨fs, [errLine e], none⟩) ∨
    (∃ d o e, readFile fs ip = .ok d ∧ seg d model = .ok o ∧
      writeFile fs (op.getD (defaultOutPath ip)) o = .error e ∧
      remove_background seg fs ip op model = ⟨fs, [errLine e], none⟩) ∨
    (∃ d o fs', readFile fs ip = .ok d ∧ seg d model = .ok o ∧
      writeFile fs (op.getD (defaultOutPath ip)) o = .ok fs' ∧
      remove_background seg fs ip op model =
        ⟨fs', successLog ip (op.getD (defaultOutPath ip)),
         some (op.getD (defaultOutPath ip))⟩) := by
  cases h1 : readFile fs ip with
  | error e => exact Or.inl ⟨e, rfl, remove_background_read_error _ _ _ _ _ _ h1⟩
  | ok d =>
    cases h2 : seg d model with
    | error e =>
      exact Or.inr (Or.inl ⟨d, e, rfl, h2, remove_background_seg_error _ _ _ _ _ _ _ h1 h2⟩)
    | ok o =>
      cases h3 : writeFile fs (op.getD (defaultOutPath ip)) o with
      | error e =>
        exact Or.inr (Or.inr (Or.inl
          ⟨d, o, e, rfl, h2, h3, remove_background_write_error _ _ _ _ _ _ _ _ h1 h2 h3⟩))
      | ok fs' =>
        exact Or.inr (Or.inr (Or.inr
          ⟨d, o, fs', rfl, h2, h3, remove_background_success _ _ _ _ _ _ _ _ h1 h2 h3⟩))

theorem lastName_concat (l : FsPath) (a : String) : lastName (l ++ [a]) = a := by
  simp [lastName, List.getLast?_concat]

theorem strEndsWith_append_suffix (s t post : String) (h : post.data <:+ t.data) :
    strEndsWith (s ++ t) post = true := by
  simp only [strEndsWith, List.isSuffixOf_iff_suffix, String.data_append]
  exact h.trans (List.suffix_append _ _)

/-! ### Concrete data used to instantiate the theorems -/

/-- A segmentation function that always succeeds with fixed output bytes. -/
def segConst (bs : List Nat) : Seg := fun _ _ => .ok bs

/-- A segmentation function that always fails. -/
def segFail : Seg := fun _ _ => .error "inference failed"

/-- A segmentation function failing exactly on one given input buffer. -/
def segExcept (bad bs : List Nat) : Seg :=
  fun b _ => if b = bad then .error "inference failed" else .ok bs

/-- The empty filesystem. -/
def fsEmpty : Fs := ⟨[], [], []⟩

/-- A filesystem with one image file inside one directory. -/
def fsOne : Fs := ⟨[(["pics", "cat.jpg"], [1, 2, 3])], [["pics"]], []⟩

/-! ### The claims -/

/-- C1: for every input path, output path and model identifier, a failure
in any of the three steps of `remove_background` — reading the input
file, the external segmentation call, or writing the output file — is
caught inside the function, which prints exactly one diagnostic line
containing the failure description `e` and returns `none` (Python's
`None`) instead of propagating the failure to its caller. -/
theorem remove_background_failure_caught (seg : Seg) (fs : Fs) (ip : FsPath)
    (op : Option FsPath) (model : String) (e : String)
    (h : readFile fs ip = .error e ∨
      (∃ d, readFile fs ip = .ok d ∧ seg d model = .error e) ∨
      (∃ d o, readFile fs ip = .ok d ∧ seg d model = .ok o ∧
        writeFile fs (op.getD (defaultOutPath ip)) o = .error e)) :
    remove_background seg fs ip op model = ⟨fs, [errLine e], none⟩ ∧
      ∃ pre, errLine e = pre ++ e := by
  refine ⟨?_, "✗ Ошибка при удалении фона: ", rfl⟩
  rcases h with h | ⟨d, h1, h2⟩ | ⟨d, o, h1, h2, h3⟩
  · exact remove_background_read_error _ _ _ _ _ _ h
  · exact remove_background_seg_error _ _ _ _ _ _ _ h1 h2
  · exact remove_background_write_error _ _ _ _ _ _ _ _ h1 h2 h3

theorem remove_background_failure_caught_wit :
    remove_background (segConst [7]) fsEmpty ["cat.jpg"] none "u2net" =
      ⟨fsEmpty, [errLine "No such file or directory: cat.jpg"], none⟩ ∧
      ∃ pre, errLine "No such file or directory: cat.jpg" =
        pre ++ "No such file or directory: cat.jpg" :=
  remove_background_failure_caught _ _ _ _ _ _ (Or.inl rfl)

/-- C3: when `remove_background` is called with no explicit output path
and succeeds, the path it returns is the input file's parent directory
joined with the input file's stem followed by `_no_bg.png`; in particular
the produced file name ends with `.png` whatever the input extension. -/
theorem default_output_path_derived (seg : Seg) (fs : Fs) (ip : FsPath)
    (model : String) (p : FsPath)
    (h : (remove_background seg fs ip none model).ret = some p) :
    p = ip.dropLast ++ [stemStr (lastName ip) ++ "_no_bg.png"] ∧
      strEndsWith (lastName p) ".png" = true := by
  rcases remove_background_cases seg fs ip none model with
    ⟨e, h1, he⟩ | ⟨d, e, h1, h2, he⟩ | ⟨d, o, e, h1, h2, h3, he⟩ | ⟨d, o, fs', h1, h2, h3, he⟩
  · rw [he] at h; simp at h
  · rw [he] at h; simp at h
  · rw [he] at h; simp at h
  · rw [he] at h
    simp only [Option.getD_none] at h
    obtain rfl : defaultOutPath ip = p := by simpa using h
    refine ⟨rfl, ?_⟩
    rw [defaultOutPath, lastName_concat]
    exact strEndsWith_append_suffix _ _ _ (by decide)

theorem default_output_path_derived_wit :
    (remove_background (segConst [9]) fsOne ["pics", "cat.jpg"] none "u2net").ret =
      some ["pics", "cat_no_bg.png"] ∧
    (["pics", "cat_no_bg.png"] =
        (["pics", "cat.jpg"] : FsPath).dropLast ++
          [stemStr (lastName ["pics", "cat.jpg"]) ++ "_no_bg.png"] ∧
      strEndsWith (lastName ["pics", "cat_no_bg.png"]) ".png" = true) :=
  ⟨rfl, default_output_path_derived (segConst [9]) fsOne ["pics", "cat.jpg"] "u2net"
    ["pics", "cat_no_bg.png"] rfl⟩

/-- C4: whenever `remove_background` succeeds, the bytes stored at the
returned output path are exactly the bytes the external segmentation
function returned for the input buffer and the model identifier — the
buffer is passed through unchanged. -/
theorem output_bytes_passthrough (seg : Seg) (fs : Fs) (ip : FsPath)
    (op : Option FsPath) (model : String) (d o : List Nat) (p : FsPath)
    (hr : readFile fs ip = .ok d) (hs : seg d model = .ok o)
    (h : (remove_background seg fs ip op model).ret = some p) :
    lookupAssoc (remove_background seg fs ip op model).fs.files p = some o := by
  rcases remove_background_cases seg fs ip op model with
    ⟨e, h1, he⟩ | ⟨d', e, h1, h2, he⟩ | ⟨d', o', e, h1, h2, h3, he⟩ |
    ⟨d', o', fs', h1, h2, h3, he⟩
  · rw [h1] at hr; cases hr
  · rw [h1] at hr
    obtain rfl : d' = d := by injection hr
    rw [h2] at hs; cases hs
  · rw [he] at h; simp at h
  · rw [h1] at hr
    obtain rfl : d' = d := by injection hr
    rw [h2] at hs
    obtain rfl : o' = o := by injection hs
    rw [he] at h ⊢
    obtain rfl : op.getD (defaultOutPath ip) = p := by simpa using h
    obtain ⟨rfl, -⟩ := writeFile_ok_inv _ _ _ _ h3
    exact lookupAssoc_updateAssoc_self _ _ _

theorem output_bytes_passthrough_wit :
    readFile fsOne ["pics", "cat.jpg"] = .ok [1, 2, 3] ∧
    segConst [9] [1, 2, 3] "u2net" = .ok [9] ∧
    lookupAssoc
      (remove_background (segConst [9]) fsOne ["pics", "cat.jpg"] none "u2net").fs.files
      ["pics", "cat_no_bg.png"] = some [9] :=
  ⟨rfl, rfl, output_bytes_passthrough _ _ _ _ _ _ _ _ rfl rfl rfl⟩

/-- C5: one run of `remove_background` writes exactly one file on
success — the output file, while every other path keeps its contents and
the directories are untouched — and writes nothing at all on failure:
the filesystem is returned unchanged on every failing run. -/
theorem writes_one_on_success_nothing_on_failure (seg : Seg) (fs : Fs)
    (ip : FsPath) (op : Option FsPath) (model : String) :
    ((remove_background seg fs ip op model).ret = none →
      (remove_background seg fs ip op model).fs = fs) ∧
    ∀ p, (remove_background seg fs ip op model).ret = some p →
      (remove_background seg fs ip op model).fs.dirs = fs.dirs ∧
      (remove_background seg fs ip op model).fs.unwritable = fs.unwritable ∧
      (∃ b, lookupAssoc (remove_background seg fs ip op model).fs.files p = some b) ∧
      ∀ q, q ≠ p →
        lookupAssoc (remove_background seg fs ip op model).fs.files q =
          lookupAssoc fs.files q := by
  rcases remove_background_cases seg fs ip op model with
    ⟨e, h1, he⟩ | ⟨d, e, h1, h2, he⟩ | ⟨d, o, e, h1, h2, h3, he⟩ |
    ⟨d, o, fs', h1, h2, h3, he⟩
  · rw [he]; exact ⟨fun _ => rfl, fun p hp => by simp at hp⟩
  · rw [he]; exact ⟨fun _ => rfl, fun p hp => by simp at hp⟩
  · rw [he]; exact ⟨fun _ => rfl, fun p hp => by simp at hp⟩
  · rw [he]
    refine ⟨fun hn => by simp at hn, fun p hp => ?_⟩
    obtain rfl : op.getD (defaultOutPath ip) = p := by simpa using hp
    obtain ⟨rfl, -⟩ := writeFile_ok_inv _ _ _ _ h3
    exact ⟨rfl, rfl, ⟨o, lookupAssoc_updateAssoc_self _ _ _⟩,
      fun q hq => lookupAssoc_updateAssoc_ne _ _ _ _ hq⟩

theorem writes_one_on_success_nothing_on_failure_wit :
    (remove_background segFail fsOne ["pics", "cat.jpg"] none "u2net").fs = fsOne ∧
    lookupAssoc
      (remove_background (segConst [9]) fsOne ["pics", "cat.jpg"] none "u2net").fs.files
      ["pics", "cat.jpg"] = lookupAssoc fsOne.files ["pics", "cat.jpg"] :=
  ⟨(writes_one_on_success_nothing_on_failure segFail fsOne ["pics", "cat.jpg"]
      none "u2net").1 rfl,
   ((writes_one_on_success_nothing_on_failure (segConst [9]) fsOne ["pics", "cat.jpg"]
      none "u2net").2 ["pics", "cat_no_bg.png"] rfl).2.2.2 ["pics", "cat.jpg"] (by decide)⟩

/-- C6: calling the batch processor on a path that does not exist aborts
immediately: the result is the unchanged filesystem together with the
missing-input-directory diagnostic outcome, so no file is processed and
no output directory is created. -/
theorem missing_input_dir_aborts (seg : Seg) (fs : Fs) (dir : FsPath)
    (odir : Option FsPath) (model : String) (h : pathExists fs dir = false) :
    batch_remove_background seg fs dir odir model = (fs, .noInputDir) := by
  simp [batch_remove_background, h]

theorem missing_input_dir_aborts_wit :
    pathExists fsEmpty ["nope"] = false ∧
    batch_remove_background (segConst [9]) fsEmpty ["nope"] none "u2net" =
      (fsEmpty, .noInputDir) :=
  ⟨rfl, missing_input_dir_aborts _ _ _ _ _ rfl⟩

/-! ### Lemmas about the batch loop and the enumeration -/

theorem batchLoop_nil (seg : Seg) (model : String) (outDir : FsPath) (fs : Fs) :
    batchLoop seg model outDir fs [] = (fs, 0) := rfl

theorem batchLoop_cons (seg : Seg) (model : String) (outDir : FsPath) (fs : Fs)
    (f : FsPath) (rest : List FsPath) :
    batchLoop seg model outDir fs (f :: rest) =
      ((batchLoop seg model outDir
          (remove_background seg fs f (some (outFileFor outDir f)) model).fs rest).1,
        (if (remove_background seg fs f (some (outFileFor outDir f)) model).ret.isSome
          then 1 else 0) +
        (batchLoop seg model outDir
          (remove_background seg fs f (some (outFileFor outDir f)) model).fs rest).2) := rfl

theorem batchFailures_nil (seg : Seg) (model : String) (outDir : FsPath) (fs : Fs) :
    batchFailures seg model outDir fs [] = 0 := rfl

theorem batchFailures_cons (seg : Seg) (model : String) (outDir : FsPath) (fs : Fs)
    (f : FsPath) (rest : List FsPath) :
    batchFailures seg model outDir fs (f :: rest) =
      (if (remove_background seg fs f (some (outFileFor outDir f)) model).ret.isSome
        then 0 else 1) +
      batchFailures seg model outDir
        (remove_background seg fs f (some (outFileFor outDir f)) model).fs rest := rfl

theorem batchLoop_count_add_failures (seg : Seg) (model : String) (outDir : FsPath) :
    ∀ (l : List FsPath) (fs : Fs),
      (batchLoop seg model outDir fs l).2 + batchFailures seg model outDir fs l =
        l.length := by
  intro l
  induction l with
  | nil => intro fs; simp [batchLoop_nil, batchFailures_nil]
  | cons f rest ih =>
    intro fs
    have h := ih (remove_background seg fs f (some (outFileFor outDir f)) model).fs
    rw [batchLoop_cons, batchFailures_cons]
    cases (remove_background seg fs f (some (outFileFor outDir f)) model).ret.isSome <;>
      simpa using by omega

theorem mem_globDir (fs : Fs) (d : FsPath) (suffix : String) (p : FsPath) :
    p ∈ globDir fs d suffix ↔
      (∃ b, (p, b) ∈ fs.files) ∧ p.dropLast = d ∧
        strEndsWith (lastName p) suffix = true := by
  simp only [globDir, List.mem_filter, List.mem_map, Bool.and_eq_true, beq_iff_eq]
  constructor
  · rintro ⟨⟨⟨q, b⟩, hm, rfl⟩, hd, he⟩
    exact ⟨⟨b, hm⟩, hd, he⟩
  · rintro ⟨⟨b, hm⟩, hd, he⟩
    exact ⟨⟨⟨p, b⟩, hm, rfl⟩, hd, he⟩

theorem mem_foldl_glob (fs : Fs) (d : FsPath) (exts : List String) :
    ∀ (acc : List FsPath) (p : FsPath),
      (p ∈ exts.foldl
          (fun acc ext => acc ++ globDir fs d ext ++ globDir fs d (strUpper ext)) acc ↔
        p ∈ acc ∨ ∃ ext ∈ exts,
          p ∈ globDir fs d ext ∨ p ∈ globDir fs d (strUpper ext)) := by
  induction exts with
  | nil => intro acc p; simp
  | cons e rest ih =>
    intro acc p
    rw [List.foldl_cons, ih]
    simp only [List.mem_append, List.mem_cons]
    constructor
    · rintro ((⟨h | h⟩ | h) | ⟨ext, hext, h⟩)
      · exact Or.inl h
      · exact Or.inr ⟨e, Or.inl rfl, Or.inl h⟩
      · exact Or.inr ⟨e, Or.inl rfl, Or.inr h⟩
      · exact Or.inr ⟨ext, Or.inr hext, h⟩
    · rintro (h | ⟨ext, rfl | hext, h⟩)
      · exact Or.inl (Or.inl (Or.inl h))
      · rcases h with h | h
        · exact Or.inl (Or.inl (Or.inr h))
        · exact Or.inl (Or.inr h)
      · exact Or.inr ⟨ext, hext, h⟩

theorem mem_listImages_iff (fs : Fs) (d : FsPath) (p : FsPath) :
    p ∈ listImages fs d ↔
      (∃ b, (p, b) ∈ fs.files) ∧ p.dropLast = d ∧
        ∃ ext ∈ imageExtensions,
          strEndsWith (lastName p) ext = true ∨
          strEndsWith (lastName p) (strUpper ext) = true := by
  rw [listImages, mem_foldl_glob]
  simp only [List.not_mem_nil, false_or, mem_globDir]
  constructor
  · rintro ⟨ext, hext, ⟨hb, hd, he⟩ | ⟨hb, hd, he⟩⟩
    · exact ⟨hb, hd, ext, hext, Or.inl he⟩
    · exact ⟨hb, hd, ext, hext, Or.inr he⟩
  · rintro ⟨hb, hd, ext, hext, he | he⟩
    · exact ⟨ext, hext, Or.inl ⟨hb, hd, he⟩⟩
    · exact ⟨ext, hext, Or.inr ⟨hb, hd, he⟩⟩

/-- C2: when the input directory exists and the enumeration finds at
least one file, the batch processor never aborts: it runs the
single-image processor on every one of the `N` enumerated files and its
final summary reports `N - K` successes out of a total of `N`, `K` being
the number of files on which the single-image processor failed during
the sequential run (`batchFailures`). -/
theorem batch_summary_success_count (seg : Seg) (fs : Fs) (dir : FsPath)
    (odir : Option FsPath) (model : String)
    (hex : pathExists fs dir = true)
    (hne : listImages (mkdirExistOk fs (odir.getD (defaultOutDir dir))) dir ≠ []) :
    batch_remove_background seg fs dir odir model =
      ((batchLoop seg model (odir.getD (defaultOutDir dir))
          (mkdirExistOk fs (odir.getD (defaultOutDir dir)))
          (listImages (mkdirExistOk fs (odir.getD (defaultOutDir dir))) dir)).1,
        .done
          ((listImages (mkdirExistOk fs (odir.getD (defaultOutDir dir))) dir).length -
            batchFailures seg model (odir.getD (defaultOutDir dir))
              (mkdirExistOk fs (odir.getD (defaultOutDir dir)))
              (listImages (mkdirExistOk fs (odir.getD (defaultOutDir dir))) dir))
          (listImages (mkdirExistOk fs (odir.getD (defaultOutDir dir))) dir).length
          (odir.getD (defaultOutDir dir))) := by
  have hcnt := batchLoop_count_add_failures seg model (odir.getD (defaultOutDir dir))
    (listImages (mkdirExistOk fs (odir.getD (defaultOutDir dir))) dir)
    (mkdirExistOk fs (odir.getD (defaultOutDir dir)))
  have hsucc :
      (batchLoop seg model (odir.getD (defaultOutDir dir))
        (mkdirExistOk fs (odir.getD (defaultOutDir dir)))
        (listImages (mkdirExistOk fs (odir.getD (defaultOutDir dir))) dir)).2 =
      (listImages (mkdirExistOk fs (odir.getD (defaultOutDir dir))) dir).length -
        batchFailures seg model (odir.getD (defaultOutDir dir))
          (mkdirExistOk fs (odir.getD (defaultOutDir dir)))
          (listImages (mkdirExistOk fs (odir.getD (defaultOutDir dir))) dir) := by
    omega
  rw [batch_remove_background, if_pos hex]
  simp only [if_neg hne, hsucc]

/-- A two-image directory: the segmentation succeeds on `a.jpg` and
fails on `b.jpg`, so the batch summary must report 1 success out of 2. -/
def fsTwo : Fs := ⟨[(["imgs", "a.jpg"], [1]), (["imgs", "b.jpg"], [2])], [["imgs"]], []⟩

theorem batch_summary_success_count_wit :
    pathExists fsTwo ["imgs"] = true ∧
    batch_remove_background (segExcept [2] [9]) fsTwo ["imgs"] none "u2net" =
      (⟨[(["imgs", "a.jpg"], [1]), (["imgs", "b.jpg"], [2]),
         (["imgs_no_bg", "a_no_bg.png"], [9])], [["imgs_no_bg"], ["imgs"]], []⟩,
        .done 1 2 ["imgs_no_bg"]) :=
  ⟨rfl, (batch_summary_success_count (segExcept [2] [9]) fsTwo ["imgs"] none "u2net"
      rfl (by decide)).trans (by decide)⟩

/-- C7: the file discovery of the batch processor selects exactly the
regular files directly inside the input directory (non-recursively, the
parent of the file being the directory itself) whose name ends with the
all-lowercase or the all-uppercase form of one of the six extensions
`.jpg .jpeg .png .bmp .tiff .webp` — the two forms being matched as two
separate glob patterns `*ext` and `*EXT`. -/
theorem image_discovery_characterization (fs : Fs) (d : FsPath) (p : FsPath) :
    p ∈ listImages fs d ↔
      (∃ b, (p, b) ∈ fs.files) ∧ p.dropLast = d ∧
        ∃ ext ∈ imageExtensions,
          strEndsWith (lastName p) ext = true ∨
          strEndsWith (lastName p) (strUpper ext) = true :=
  mem_listImages_iff fs d p

/-! ### Preservation lemmas -/

theorem remove_background_dirs_eq (seg : Seg) (fs : Fs) (ip : FsPath)
    (op : Option FsPath) (model : String) :
    (remove_background seg fs ip op model).fs.dirs = fs.dirs := by
  rcases remove_background_cases seg fs ip op model with
    ⟨e, h1, he⟩ | ⟨d, e, h1, h2, he⟩ | ⟨d, o, e, h1, h2, h3, he⟩ |
    ⟨d, o, fs', h1, h2, h3, he⟩
  · rw [he]
  · rw [he]
  · rw [he]
  · rw [he]
    obtain ⟨rfl, -⟩ := writeFile_ok_inv _ _ _ _ h3
    rfl

theorem batchLoop_dirs_eq (seg : Seg) (model : String) (outDir : FsPath) :
    ∀ (l : List FsPath) (fs : Fs),
      (batchLoop seg model outDir fs l).1.dirs = fs.dirs := by
  intro l
  induction l with
  | nil => intro fs; rfl
  | cons f rest ih =>
    intro fs
    rw [batchLoop_cons]
    exact (ih _).trans (remove_background_dirs_eq _ _ _ _ _)

theorem mkdirExistOk_files (fs : Fs) (p : FsPath) :
    (mkdirExistOk fs p).files = fs.files := by
  unfold mkdirExistOk
  split <;> rfl

theorem mem_mkdirExistOk_dirs (fs : Fs) (p : FsPath) :
    p ∈ (mkdirExistOk fs p).dirs := by
  unfold mkdirExistOk
  split
  · assumption
  · exact List.mem_cons_self _ _

theorem mkdirExistOk_of_mem (fs : Fs) (p : FsPath) (h : p ∈ fs.dirs) :
    mkdirExistOk fs p = fs := by
  unfold mkdirExistOk
  exact if_pos h

/-- The output directory a batch outcome reports, when it reports one. -/
def outcomeDir : BatchOutcome → Option FsPath
  | .noInputDir => none
  | .noImages o => some o
  | .done _ _ o => some o

/-- C8: with an existing input directory and no explicit output
directory, the batch processor derives the output directory as the input
directory's parent joined with the input directory's name suffixed
`_no_bg`, reports exactly that directory in its outcome, and ensures it
exists afterwards; creation is idempotent: when the directory already
exists it is reused and the directory list is unchanged, with no error
outcome. -/
theorem default_output_dir_created (seg : Seg) (fs : Fs) (dir : FsPath)
    (model : String) (hex : pathExists fs dir = true) :
    outcomeDir (batch_remove_background seg fs dir none model).2 =
      some (defaultOutDir dir) ∧
    defaultOutDir dir ∈ (batch_remove_background seg fs dir none model).1.dirs ∧
    (defaultOutDir dir ∈ fs.dirs →
      (batch_remove_background seg fs dir none model).1.dirs = fs.dirs) := by
  rw [batch_remove_background, if_pos hex]
  simp only [Option.getD_none]
  by_cases hfe : listImages (mkdirExistOk fs (defaultOutDir dir)) dir = []
  · rw [if_pos hfe]
    refine ⟨rfl, mem_mkdirExistOk_dirs _ _, fun hmem => ?_⟩
    rw [mkdirExistOk_of_mem _ _ hmem]
  · rw [if_neg hfe]
    refine ⟨rfl, ?_, fun hmem => ?_⟩
    · rw [batchLoop_dirs_eq]
      exact mem_mkdirExistOk_dirs _ _
    · rw [batchLoop_dirs_eq, mkdirExistOk_of_mem _ _ hmem]

theorem default_output_dir_created_wit :
    pathExists fsOne ["pics"] = true ∧
    (outcomeDir (batch_remove_background (segConst [9]) fsOne ["pics"] none "u2net").2 =
        some (defaultOutDir ["pics"]) ∧
      defaultOutDir ["pics"] ∈
        (batch_remove_background (segConst [9]) fsOne ["pics"] none "u2net").1.dirs ∧
      (defaultOutDir ["pics"] ∈ fsOne.dirs →
        (batch_remove_background (segConst [9]) fsOne ["pics"] none "u2net").1.dirs =
          fsOne.dirs)) :=
  ⟨rfl, default_output_dir_created (segConst [9]) fsOne ["pics"] "u2net" rfl⟩

/-- No image is enumerated under a path that has no directory entries
below it — the situation of a regular file used as the input directory. -/
theorem listImages_eq_nil_of_no_children (fs : Fs) (d : FsPath)
    (h : ∀ q ∈ fs.files.map Prod.fst, q.dropLast ≠ d) : listImages fs d = [] := by
  rw [List.eq_nil_iff_forall_not_mem]
  intro p hp
  rw [mem_listImages_iff] at hp
  obtain ⟨⟨b, hb⟩, hd, -⟩ := hp
  exact h p (List.mem_map_of_mem Prod.fst hb) hd

/-- C9: a path that exists as a regular file passes the existence check
of the batch processor — `Path.exists()` accepts any existing path, not
only directories — so instead of the missing-input-directory abort the
run proceeds, creates the derived output directory, and only then stops
at the no-images check. -/
theorem file_input_passes_existence_check (seg : Seg) (fs : Fs) (p : FsPath)
    (model : String) (hf : (lookupAssoc fs.files p).isSome = true)
    (hnosub : ∀ q ∈ fs.files.map Prod.fst, q.dropLast ≠ p) :
    batch_remove_background seg fs p none model =
      (mkdirExistOk fs (defaultOutDir p), .noImages (defaultOutDir p)) ∧
    defaultOutDir p ∈ (mkdirExistOk fs (defaultOutDir p)).dirs := by
  have hex : pathExists fs p = true := by
    rw [pathExists, hf, Bool.true_or]
  have hnil : listImages (mkdirExistOk fs (defaultOutDir p)) p = [] := by
    apply listImages_eq_nil_of_no_children
    rw [mkdirExistOk_files]
    exact hnosub
  rw [batch_remove_background, if_pos hex]
  simp only [Option.getD_none]
  rw [if_pos hnil]
  exact ⟨rfl, mem_mkdirExistOk_dirs _ _⟩

/-- A regular file at the root, no directories. -/
def fsFile : Fs := ⟨[(["f.txt"], [1])], [], []⟩

theorem file_input_passes_existence_check_wit :
    (lookupAssoc fsFile.files ["f.txt"]).isSome = true ∧
    (batch_remove_background (segConst [9]) fsFile ["f.txt"] none "u2net" =
        (mkdirExistOk fsFile (defaultOutDir ["f.txt"]),
          .noImages (defaultOutDir ["f.txt"])) ∧
      defaultOutDir ["f.txt"] ∈ (mkdirExistOk fsFile (defaultOutDir ["f.txt"])).dirs) :=
  ⟨rfl, file_input_passes_existence_check (segConst [9]) fsFile ["f.txt"] "u2net"
    rfl (by decide)⟩

/-- A directory holding two files whose names differ only in the case of
the extension, sharing the stem `a`. -/
def fsCasePair (b1 b2 : List Nat) : Fs :=
  ⟨[(["imgs", "a.jpg"], b1), (["imgs", "a.JPG"], b2)], [["imgs"]], []⟩

set_option maxHeartbeats 4000000 in
/-- C10: on the (case-sensitive) filesystem model, a directory holding
the two distinct files `a.jpg` and `a.JPG` — names differing only in the
case of the extension, sharing the stem `a` — makes the batch processor
enumerate both (the lowercase glob finds `a.jpg`, the uppercase glob
finds `a.JPG` right after it), derive the same output path
`<output_dir>/a_no_bg.png` for each, and the file processed later
(`a.JPG`) overwrites the output written for the file processed earlier:
whatever contents and segmentation outcome `a.jpg` had, the final bytes
at the shared output path are the segmentation output for `a.JPG`. -/
theorem case_variant_files_overwrite (seg : Seg) (b1 b2 o2 : List Nat)
    (h2 : seg b2 "u2net" = .ok o2) :
    listImages (fsCasePair b1 b2) ["imgs"] = [["imgs", "a.jpg"], ["imgs", "a.JPG"]] ∧
    outFileFor ["imgs_no_bg"] ["imgs", "a.jpg"] =
      outFileFor ["imgs_no_bg"] ["imgs", "a.JPG"] ∧
    lookupAssoc
      ((batch_remove_background seg (fsCasePair b1 b2) ["imgs"] none "u2net").1).files
      (outFileFor ["imgs_no_bg"] ["imgs", "a.JPG"]) = some o2 := by
  refine ⟨rfl, rfl, ?_⟩
  have hb : (batch_remove_background seg (fsCasePair b1 b2) ["imgs"] none "u2net").1 =
      (batchLoop seg "u2net" ["imgs_no_bg"]
        ⟨[(["imgs", "a.jpg"], b1), (["imgs", "a.JPG"], b2)],
          [["imgs_no_bg"], ["imgs"]], []⟩
        [["imgs", "a.jpg"], ["imgs", "a.JPG"]]).1 := rfl
  rw [hb]
  cases h1 : seg b1 "u2net" with
  | error e1 =>
    have r1 := remove_background_seg_error seg
      ⟨[(["imgs", "a.jpg"], b1), (["imgs", "a.JPG"], b2)], [["imgs_no_bg"], ["imgs"]], []⟩
      ["imgs", "a.jpg"] (some (outFileFor ["imgs_no_bg"] ["imgs", "a.jpg"])) "u2net"
      b1 e1 rfl h1
    have r2 := remove_background_success seg
      ⟨[(["imgs", "a.jpg"], b1), (["imgs", "a.JPG"], b2)], [["imgs_no_bg"], ["imgs"]], []⟩
      ["imgs", "a.JPG"] (some (outFileFor ["imgs_no_bg"] ["imgs", "a.JPG"])) "u2net"
      b2 o2
      ⟨[(["imgs", "a.jpg"], b1), (["imgs", "a.JPG"], b2),
        (["imgs_no_bg", "a_no_bg.png"], o2)], [["imgs_no_bg"], ["imgs"]], []⟩
      rfl h2 rfl
    simp only [batchLoop_cons, batchLoop_nil, r1, r2]
    rfl
  | ok o1 =>
    have r1 := remove_background_success seg
      ⟨[(["imgs", "a.jpg"], b1), (["imgs", "a.JPG"], b2)], [["imgs_no_bg"], ["imgs"]], []⟩
      ["imgs", "a.jpg"] (some (outFileFor ["imgs_no_bg"] ["imgs", "a.jpg"])) "u2net"
      b1 o1
      ⟨[(["imgs", "a.jpg"], b1), (["imgs", "a.JPG"], b2),
        (["imgs_no_bg", "a_no_bg.png"], o1)], [["imgs_no_bg"], ["imgs"]], []⟩
      rfl h1 rfl
    have r2 := remove_background_success seg
      ⟨[(["imgs", "a.jpg"], b1), (["imgs", "a.JPG"], b2),
        (["imgs_no_bg", "a_no_bg.png"], o1)], [["imgs_no_bg"], ["imgs"]], []⟩
      ["imgs", "a.JPG"] (some (outFileFor ["imgs_no_bg"] ["imgs", "a.JPG"])) "u2net"
      b2 o2
      ⟨[(["imgs", "a.jpg"], b1), (["imgs", "a.JPG"], b2),
        (["imgs_no_bg", "a_no_bg.png"], o2)], [["imgs_no_bg"], ["imgs"]], []⟩
      rfl h2 rfl
    simp only [batchLoop_cons, batchLoop_nil, r1, r2]
    rfl

theorem case_variant_files_overwrite_wit :
    segConst [5] [2] "u2net" = .ok [5] ∧
    (listImages (fsCasePair [1] [2]) ["imgs"] =
        [["imgs", "a.jpg"], ["imgs", "a.JPG"]] ∧
      outFileFor ["imgs_no_bg"] ["imgs", "a.jpg"] =
        outFileFor ["imgs_no_bg"] ["imgs", "a.JPG"] ∧
      lookupAssoc
        ((batch_remove_background (segConst [5]) (fsCasePair [1] [2]) ["imgs"]
          none "u2net").1).files
        (outFileFor ["imgs_no_bg"] ["imgs", "a.JPG"]) = some [5]) :=
  ⟨rfl, case_variant_files_overwrite (segConst [5]) [1] [2] [5] rfl⟩

example : stemStr "a.jpg" = "a" := by decide
example : stemStr ".bashrc" = ".bashrc" := by decide
example : stemStr "archive.tar.gz" = "archive.tar" := by decide
example : stemStr "a." = "a." := by decide
example : strEndsWith "a.JPG" ".jpg" = false := by decide
example : strEndsWith "a.JPG" (strUpper ".jpg") = true := by decide
example : defaultOutPath ["d", "photo.jpeg"] = ["d", "photo_no_bg.png"] := by decide

end RemoveBg
